import Mathlib

/-!
Verification of the shortify-link core (Django URL shortener).

Shallow embedding of `src/links/utils.py`, `src/links/services.py` and the
data model of `src/links/models.py`.  Pure string manipulation is embedded
as plain recursion over `List Char`; the relational store is an explicit
`DB` state threaded through the service functions; randomness
(`secrets.choice`) and the store's insert outcome (success or
`IntegrityError`) are supplied as oracle functions, reflecting that both
are external effects from the point of view of the service code.
-/

namespace Shortify

/-! ## String helpers (Python `startswith`, `in`, `lower`, `split`, `strip`) -/

/-- Boolean list-prefix test, used to embed Python substring tests. -/
def isPrefixList : List Char → List Char → Bool
  | [], _ => true
  | _ :: _, [] => false
  | a :: as, b :: bs => a == b && isPrefixList as bs

/-- Boolean infix test: does `sub` occur contiguously in the second list? -/
def containsList (sub : List Char) : List Char → Bool
  | [] => isPrefixList sub []
  | b :: bs => isPrefixList sub (b :: bs) || containsList sub bs

/-- Python `sub in s` (substring containment). -/
def containsSub (s sub : String) : Bool :=
  containsList sub.data s.data

/-- Python `s.startswith(pre)`. -/
def pyStartsWith (s pre : String) : Bool :=
  isPrefixList pre.data s.data

/-- Python `s.lower()` (ASCII case folding, as `Char.toLower`). -/
def lowerString (s : String) : String :=
  String.mk (s.data.map Char.toLower)

/-- Characters of `s.split(",")[0]`: everything before the first comma. -/
def takeUntilComma : List Char → List Char
  | [] => []
  | c :: cs => if c == ',' then [] else c :: takeUntilComma cs

/-- Drop leading whitespace characters. -/
def dropLeadingWs : List Char → List Char
  | [] => []
  | c :: cs => if c.isWhitespace then dropLeadingWs cs else c :: cs

/-- Python `s.strip()`: drop whitespace from both ends. -/
def stripWs (s : String) : String :=
  String.mk ((dropLeadingWs ((dropLeadingWs s.data).reverse)).reverse)

/-- Python `s.split(",")[0].strip()`, the forwarded-for extraction step of
`ClickTrackerService._extract_metadata`. -/
def firstForwardedEntry (s : String) : String :=
  stripWs (String.mk (takeUntilComma s.data))

/-! ## `src/links/utils.py` -/

/-- The alphabet of `generate_short_code`:
`string.ascii_letters + string.digits`. -/
def codeAlphabet : List Char :=
  "abcdefghijklmnopqrstuvwxyzABCDEFGHIJKLMNOPQRSTUVWXYZ0123456789".data

/-- `generate_short_code(length)` from `src/links/utils.py`.  Each call to
`secrets.choice(alphabet)` is embedded as an oracle `rng : Nat → Nat` giving
the chosen index (reduced mod the alphabet size) for each position. -/
def generate_short_code (rng : Nat → Nat) (length : Nat) : String :=
  String.mk ((List.range length).map fun i =>
    codeAlphabet.getD (rng i % codeAlphabet.length) 'a')

/-- `validate_url(url)` from `src/links/utils.py`.  Django's `URLValidator`
is framework code external to the repository, embedded as an oracle
predicate `validatorOk`; the two checks written in the repository (scheme
and localhost) precede it exactly as in the source.  Errors carry the
`ValidationError` message. -/
def validate_url (validatorOk : String → Bool) (url : String) :
    Except String Unit :=
  if !(pyStartsWith url "http://" || pyStartsWith url "https://") then
    .error "URL must include http:// or https://"
  else if containsSub (lowerString url) "localhost" ||
      containsSub url "127.0.0.1" then
    .error "Localhost URLs are not allowed"
  else if validatorOk url then
    .ok ()
  else
    .error "Enter a valid URL."

/-! ## Data model (`src/links/models.py`)

Timestamp fields (`created_at`, `clicked_at`) are immaterial to the
verified properties and are omitted from the record types. -/

/-- A row of `links_shortlink`. -/
structure ShortLink where
  id : Nat
  original_url : String
  short_code : String
  clicks_count : Nat
deriving Repr, DecidableEq

/-- A row of `links_click`.  `short_link_id` is the foreign key to
`ShortLink.id`; `query_params` is the optional JSON mapping, embedded as an
association list. -/
structure Click where
  id : Nat
  short_link_id : Nat
  query_params : Option (List (String × String))
  user_agent : Option String
  referrer : Option String
  ip_address : Option String
deriving Repr, DecidableEq

/-- The relational store: the two tables plus the auto-increment
counters of their `BigAutoField` primary keys. -/
structure DB where
  links : List ShortLink
  clicks : List Click
  next_link_id : Nat
  next_click_id : Nat
deriving Repr, DecidableEq

/-- `ShortLink.objects.filter(original_url=url).first()`. -/
def findByUrl (links : List ShortLink) (url : String) : Option ShortLink :=
  links.find? fun l => l.original_url == url

/-- `ShortLink.objects.filter(pk=i).first()`. -/
def findByPk (db : DB) (i : Nat) : Option ShortLink :=
  db.links.find? fun l => l.id == i

/-- `ShortLink.objects.create(original_url=url, short_code=code)`:
the new row and the store after the insert. -/
def insertLink (db : DB) (url code : String) : ShortLink × DB :=
  let link : ShortLink :=
    { id := db.next_link_id, original_url := url, short_code := code,
      clicks_count := 0 }
  (link, { db with links := db.links ++ [link],
                   next_link_id := db.next_link_id + 1 })

/-! ## `LinkShortenerService.create_link` (`src/links/services.py`) -/

/-- The store's response to one `ShortLink.objects.create` attempt:
either the insert commits, or the unique constraints reject it with an
`IntegrityError` carrying a message string.  Supplied as an oracle so that
concurrent writers (rows inserted between the dedup check and the insert)
are expressible. -/
inductive InsertOutcome where
  | ok
  | integrityError (msg : String)
deriving Repr, DecidableEq

/-- The error outcomes of `create_link`: a `ValidationError`, the
`RuntimeError` raised when the retry bound is exhausted (the spec's
`AllocationExhausted`), or a re-raised `IntegrityError`. -/
inductive CreateErr where
  | validationError (msg : String)
  | allocationExhausted (msg : String)
  | integrityError (msg : String)
deriving Repr, DecidableEq

instance decEqExcept {ε α : Type} [DecidableEq ε] [DecidableEq α] :
    DecidableEq (Except ε α) := fun a b =>
  match a, b with
  | .ok x, .ok y =>
    if h : x = y then .isTrue (by rw [h]) else .isFalse (by simp [h])
  | .ok _, .error _ => .isFalse (by simp)
  | .error _, .ok _ => .isFalse (by simp)
  | .error e, .error f =>
    if h : e = f then .isTrue (by rw [h]) else .isFalse (by simp [h])

/-- The `for attempt in range(max_retries)` loop of `create_link`:
each iteration draws a fresh code `generate_short_code (rand attempt) 6`
and attempts the insert; an `IntegrityError` whose message mentions
`short_code` is a collision and retries, any other `IntegrityError`
re-raises; exhausting the bound raises
`RuntimeError` (`allocationExhausted`). -/
def create_link_loop (url : String) (rand : Nat → Nat → Nat)
    (outcomes : Nat → InsertOutcome) :
    Nat → Nat → DB → Except CreateErr ShortLink × DB
  | _, 0, db =>
    (.error (.allocationExhausted
      "Failed to generate unique short code after 10 attempts"), db)
  | attempt, remaining + 1, db =>
    let short_code := generate_short_code (rand attempt) 6
    match outcomes attempt with
    | .ok =>
      let (link, db') := insertLink db url short_code
      (.ok link, db')
    | .integrityError msg =>
      if containsSub msg "short_code" then
        create_link_loop url rand outcomes (attempt + 1) remaining db
      else
        (.error (.integrityError msg), db)

/-- `LinkShortenerService.create_link(original_url)`: validate, dedup
lookup, then the collision-retry loop with `max_retries = 10`.  The
trailing `except` handlers of the source only log and re-raise, so they do
not change the result. -/
def create_link (validatorOk : String → Bool) (db : DB)
    (original_url : String) (rand : Nat → Nat → Nat)
    (outcomes : Nat → InsertOutcome) : Except CreateErr ShortLink × DB :=
  match validate_url validatorOk original_url with
  | .error m => (.error (.validationError m), db)
  | .ok _ =>
    match findByUrl db.links original_url with
    | some existing => (.ok existing, db)
    | none => create_link_loop original_url rand outcomes 0 10 db

/-! ## `ClickTrackerService` (`src/links/services.py`) -/

/-- The inbound HTTP request, as the service reads it: `request.GET` is
the parsed query string as its raw list of key/value pairs (possibly with
repeated keys), `request.META` the WSGI header mapping. -/
structure HttpRequest where
  GET : List (String × String)
  META : List (String × String)
deriving Repr, DecidableEq

/-- `request.META.get(k)`. -/
def metaGet (meta : List (String × String)) (k : String) : Option String :=
  (meta.find? fun p => p.1 == k).map Prod.snd

/-- Python truthiness of `request.META.get(k)`: `None` and `""` are falsy. -/
def truthyStr : Option String → Bool
  | none => false
  | some s => !(s == "")

/-- One step of Python `dict` insertion: set key `k` to `v`, overwriting
in place if `k` is already present, else appending. -/
def assocUpdate (l : List (String × String)) (k v : String) :
    List (String × String) :=
  match l with
  | [] => [(k, v)]
  | (k', v') :: rest =>
    if k' == k then (k', v) :: rest else (k', v') :: assocUpdate rest k v

/-- `dict(request.GET.items())`: Django's `QueryDict.items()` yields, for
each key, its last value, and `dict` keeps keys in first-occurrence order —
equivalently a last-value-wins fold of the raw pair list. -/
def dictItems (pairs : List (String × String)) : List (String × String) :=
  pairs.foldl (fun acc p => assocUpdate acc p.1 p.2) []

/-- The metadata bundle built by `ClickTrackerService._extract_metadata`. -/
structure Metadata where
  query_params : Option (List (String × String))
  user_agent : Option String
  referrer : Option String
  ip_address : Option String
deriving Repr, DecidableEq

/-- `ClickTrackerService._extract_metadata(request)`.  The `query_params`
key is set only when `request.GET` is truthy (non-empty); the forwarded-for
branch is taken only when the header value is truthy (present and
non-empty), and takes the first comma-separated entry, stripped. -/
def extract_metadata (req : HttpRequest) : Metadata :=
  { query_params :=
      if req.GET.isEmpty then none else some (dictItems req.GET)
    user_agent := metaGet req.META "HTTP_USER_AGENT"
    referrer := metaGet req.META "HTTP_REFERER"
    ip_address :=
      match metaGet req.META "HTTP_X_FORWARDED_FOR" with
      | some s =>
        if !(s == "") then some (firstForwardedEntry s)
        else metaGet req.META "REMOTE_ADDR"
      | none => metaGet req.META "REMOTE_ADDR" }

/-- The body of the `try` block of `record_click`: extract metadata, then,
inside one transaction, create the `Click` row and atomically increment
`clicks_count` on the rows with the link's pk.  `storeErr` is the oracle
for a storage-layer exception (any cause); when it fires the transaction
rolls back and the error propagates out of the block. -/
def record_click_attempt (storeErr : Option String) (db : DB)
    (short_link : ShortLink) (req : HttpRequest) :
    Except String (Click × DB) :=
  let metadata := extract_metadata req
  match storeErr with
  | some e => .error e
  | none =>
    let click : Click :=
      { id := db.next_click_id, short_link_id := short_link.id,
        query_params := metadata.query_params,
        user_agent := metadata.user_agent,
        referrer := metadata.referrer,
        ip_address := metadata.ip_address }
    let db' : DB :=
      { db with
        clicks := db.clicks ++ [click],
        links := db.links.map fun l =>
          if l.id == short_link.id then
            { l with clicks_count := l.clicks_count + 1 }
          else l,
        next_click_id := db.next_click_id + 1 }
    .ok (click, db')

/-- `ClickTrackerService.record_click(short_link, request)`: the whole
body is wrapped in `try/except Exception`, which logs and returns `None`,
so the function is total — it never propagates an exception and on failure
leaves the store untouched. -/
def record_click (storeErr : Option String) (db : DB)
    (short_link : ShortLink) (req : HttpRequest) : Option Click × DB :=
  match record_click_attempt storeErr db short_link req with
  | .ok (click, db') => (some click, db')
  | .error _ => (none, db)

/-- The `Click` row created by the success path of `record_click`
(definitionally equal to the row built inside `record_click_attempt`). -/
def recordedClick (db : DB) (short_link : ShortLink) (req : HttpRequest) :
    Click :=
  { id := db.next_click_id, short_link_id := short_link.id,
    query_params := (extract_metadata req).query_params,
    user_agent := (extract_metadata req).user_agent,
    referrer := (extract_metadata req).referrer,
    ip_address := (extract_metadata req).ip_address }

/-- The per-row effect of `UPDATE ... SET clicks_count = clicks_count + 1
WHERE pk = i`: bump the counter of a row whose pk matches `i`. -/
def bumpIfPk (i : Nat) (l : ShortLink) : ShortLink :=
  if l.id == i then { l with clicks_count := l.clicks_count + 1 } else l

/-- The store after the success path of `record_click` (definitionally
equal to the state built inside `record_click_attempt`). -/
def recordedDB (db : DB) (short_link : ShortLink) (req : HttpRequest) : DB :=
  { db with
    clicks := db.clicks ++ [recordedClick db short_link req],
    links := db.links.map (bumpIfPk short_link.id),
    next_click_id := db.next_click_id + 1 }

/-- Number of committed `Click` rows referencing link id `i`. -/
def countClicks (clicks : List Click) (i : Nat) : Nat :=
  (clicks.filter fun c => c.short_link_id == i).length

/-- The spec's counter invariant: every link's `clicks_count` equals the
number of `Click` rows referencing it. -/
def clicksInvariant (db : DB) : Prop :=
  ∀ l ∈ db.links, l.clicks_count = countClicks db.clicks l.id

/-- The insert outcomes that `create_link` retries on: an `IntegrityError`
whose message mentions `short_code` (the collision test
`"short_code" in str(e)` of the source). -/
def retryableCollision : InsertOutcome → Bool
  | .ok => false
  | .integrityError msg => containsSub msg "short_code"

/-! ## Concrete fixtures used to instantiate the theorems -/

/-- The empty store. -/
def emptyDB : DB :=
  { links := [], clicks := [], next_link_id := 1, next_click_id := 1 }

/-- A permissive `URLValidator` oracle. -/
def allValid : String → Bool := fun _ => true

/-- A randomness oracle that always draws index 0 (code `"aaaaaa"`). -/
def zeroRand : Nat → Nat → Nat := fun _ _ => 0

/-- A store oracle whose inserts always commit. -/
def allOk : Nat → InsertOutcome := fun _ => .ok

/-- The `IntegrityError` message of an `original_url` unique-constraint
violation (the concurrent-duplicate race). -/
def raceMsg : String := "UNIQUE constraint failed: links_shortlink.original_url"

/-- The `IntegrityError` message of a `short_code` unique-constraint
violation (an expected collision). -/
def collisionMsg : String := "UNIQUE constraint failed: links_shortlink.short_code"

/-- A store oracle whose inserts always collide on `short_code`. -/
def allCollide : Nat → InsertOutcome := fun _ => .integrityError collisionMsg

/-- The link created by `create_link` on the empty store with `zeroRand`. -/
def demoLink : ShortLink :=
  { id := 1, original_url := "https://example.com/a", short_code := "aaaaaa",
    clicks_count := 0 }

/-- The store after that creation. -/
def demoDB : DB :=
  { links := [demoLink], clicks := [], next_link_id := 2, next_click_id := 1 }

/-- A request with one query parameter and a direct peer address. -/
def demoReq : HttpRequest :=
  { GET := [("utm_source", "x")], META := [("REMOTE_ADDR", "203.0.113.7")] }

/-- A request whose forwarded-for header is present but empty. -/
def emptyXffReq : HttpRequest :=
  { GET := [], META := [("HTTP_X_FORWARDED_FOR", ""),
                        ("REMOTE_ADDR", "203.0.113.9")] }

/-- A request whose query string repeats the key `a`. -/
def dupKeyReq : HttpRequest :=
  { GET := [("a", "1"), ("a", "2")], META := [] }

/-- A request arriving through a proxy chain of two hops. -/
def proxiedReq : HttpRequest :=
  { GET := [], META := [("HTTP_X_FORWARDED_FOR", " 203.0.113.7 , 10.0.0.2"),
                        ("REMOTE_ADDR", "10.0.0.2")] }

/-! ## Lemmas -/

theorem getD_mem_codeAlphabet (k : Nat) : codeAlphabet.getD k 'a' ∈ codeAlphabet := by
  rw [List.getD_eq_get?]
  cases h : codeAlphabet.get? k with
  | some c => simpa using List.get?_mem h
  | none => simp [Option.getD]; decide

theorem codeAlphabet_alphanum : ∀ c ∈ codeAlphabet, c.isAlphanum = true := by
  decide

theorem generate_short_code_length (rng : Nat → Nat) (n : Nat) :
    (generate_short_code rng n).length = n := by
  simp [generate_short_code, String.length]

theorem generate_short_code_chars (rng : Nat → Nat) (n : Nat) :
    ∀ c ∈ (generate_short_code rng n).data, c.isAlphanum = true := by
  intro c hc
  simp only [generate_short_code, String.data] at hc
  simp only [List.mem_map] at hc
  obtain ⟨i, _, rfl⟩ := hc
  exact codeAlphabet_alphanum _ (getD_mem_codeAlphabet _)

theorem create_link_loop_ok_shape (url : String) (rand : Nat → Nat → Nat)
    (outcomes : Nat → InsertOutcome) :
    ∀ r attempt db link db1,
      create_link_loop url rand outcomes attempt r db = (.ok link, db1) →
      link.original_url = url ∧ db1.links = db.links ++ [link] ∧
      link.clicks_count = 0 ∧
      ∃ j, link.short_code = generate_short_code (rand j) 6 := by
  intro r
  induction r with
  | zero =>
    intro attempt db link db1 h
    simp [create_link_loop] at h
  | succ n ih =>
    intro attempt db link db1 h
    rw [create_link_loop] at h
    cases ho : outcomes attempt with
    | ok =>
      rw [ho] at h
      simp only [insertLink, Prod.mk.injEq, Except.ok.injEq] at h
      obtain ⟨hl, hdb⟩ := h
      subst hl
      refine ⟨rfl, ?_, rfl, attempt, rfl⟩
      rw [← hdb]
    | integrityError msg =>
      by_cases hc : containsSub msg "short_code" = true
      · simp only [ho, hc, if_true] at h
        exact ih (attempt + 1) db link db1 h
      · simp [ho, hc] at h

theorem create_link_loop_shift (url : String) (rand : Nat → Nat → Nat)
    (outcomes : Nat → InsertOutcome) :
    ∀ k s attempt db,
      (∀ i, i < k → retryableCollision (outcomes (attempt + i)) = true) →
      create_link_loop url rand outcomes attempt (k + s) db =
        create_link_loop url rand outcomes (attempt + k) s db := by
  intro k
  induction k with
  | zero =>
    intro s attempt db _
    simp
  | succ n ih =>
    intro s attempt db h
    have h0 := h 0 n.succ_pos
    rw [Nat.add_zero] at h0
    cases ho : outcomes attempt with
    | ok => simp [ho, retryableCollision] at h0
    | integrityError msg =>
      rw [ho] at h0
      have hc : containsSub msg "short_code" = true := by
        simpa [retryableCollision] using h0
      have harg : ∀ i, i < n →
          retryableCollision (outcomes (attempt + 1 + i)) = true := by
        intro i hi
        have := h (i + 1) (by omega)
        rwa [show attempt + (i + 1) = attempt + 1 + i by omega] at this
      calc create_link_loop url rand outcomes attempt (n + 1 + s) db
          = create_link_loop url rand outcomes attempt ((n + s) + 1) db := by
            rw [show n + 1 + s = (n + s) + 1 by omega]
        _ = create_link_loop url rand outcomes (attempt + 1) (n + s) db := by
            rw [create_link_loop]; simp [ho, hc]
        _ = create_link_loop url rand outcomes (attempt + 1 + n) s db :=
            ih s (attempt + 1) db harg
        _ = create_link_loop url rand outcomes (attempt + (n + 1)) s db := by
            rw [show attempt + 1 + n = attempt + (n + 1) by omega]

theorem create_link_validation_error (v : String → Bool) (db : DB)
    (url : String) (rand : Nat → Nat → Nat) (outcomes : Nat → InsertOutcome)
    (m : String) (h : validate_url v url = .error m) :
    create_link v db url rand outcomes = (.error (.validationError m), db) := by
  simp [create_link, h]

theorem validate_url_rejects (v : String → Bool) (url : String)
    (h : (pyStartsWith url "http://" = false ∧
          pyStartsWith url "https://" = false) ∨
      containsSub (lowerString url) "localhost" = true ∨
      containsSub url "127.0.0.1" = true) :
    ∃ m, validate_url v url = .error m ∧ m ≠ "" := by
  unfold validate_url
  by_cases h1 : (pyStartsWith url "http://" || pyStartsWith url "https://") = true
  · have h2 : (containsSub (lowerString url) "localhost" ||
        containsSub url "127.0.0.1") = true := by
      rcases h with ⟨ha, hb⟩ | hl | hi
      · rw [ha, hb] at h1; exact absurd h1 (by simp)
      · simp [hl]
      · simp [hi]
    refine ⟨"Localhost URLs are not allowed", ?_, by decide⟩
    simp [h1, h2]
  · refine ⟨"URL must include http:// or https://", ?_, by decide⟩
    simp only [Bool.not_eq_true] at h1
    simp [h1]

theorem findByUrl_append_singleton (ls : List ShortLink) (url : String)
    (l : ShortLink) (hnone : findByUrl ls url = none)
    (hurl : l.original_url = url) :
    findByUrl (ls ++ [l]) url = some l := by
  unfold findByUrl at *
  rw [List.find?_append, hnone]
  simp [List.find?, hurl]

/-! ## Claim theorems -/

/-- C7: every short code generated during allocation has length exactly 6
and consists only of characters in `[a-zA-Z0-9]`: this holds of
`generate_short_code` at length 6 under every randomness oracle, and hence
of the `short_code` of every link freshly allocated by `create_link`
(a call that did not hit the dedup path). -/
theorem short_code_six_alphanumeric :
    (∀ rng : Nat → Nat, (generate_short_code rng 6).length = 6 ∧
      ∀ c ∈ (generate_short_code rng 6).data, c.isAlphanum = true) ∧
    (∀ v db url rand outcomes link db1,
      findByUrl db.links url = none →
      create_link v db url rand outcomes = (.ok link, db1) →
      link.short_code.length = 6 ∧
      ∀ c ∈ link.short_code.data, c.isAlphanum = true) := by
  constructor
  · intro rng
    exact ⟨generate_short_code_length rng 6, generate_short_code_chars rng 6⟩
  · intro v db url rand outcomes link db1 hfind h
    cases hv : validate_url v url with
    | error m => simp [create_link, hv] at h
    | ok u =>
      cases u
      simp only [create_link, hv, hfind] at h
      obtain ⟨-, -, -, j, hcode⟩ :=
        create_link_loop_ok_shape url rand outcomes 10 0 db link db1 h
      rw [hcode]
      exact ⟨generate_short_code_length _ 6, generate_short_code_chars _ 6⟩

/-- Witness for C7 at a concrete allocation on the empty store. -/
theorem short_code_six_alphanumeric_witness :
    demoLink.short_code.length = 6 :=
  (short_code_six_alphanumeric.2 allValid emptyDB "https://example.com/a"
    zeroRand allOk demoLink demoDB (by decide) (by decide)).1

/-- C4: when no existing row matches, `create_link`
makes at most 10 insert attempts, drawing the fresh code
`generate_short_code (rand k) 6` on attempt `k`; a `short_code` uniqueness
violation retries, and ten collision-only attempts end in the
`allocationExhausted` error (`RuntimeError`) with the store unchanged. -/
theorem create_link_retry_policy :
    ∀ v db url rand outcomes,
      validate_url v url = .ok () →
      findByUrl db.links url = none →
      ((∀ i, i < 10 → retryableCollision (outcomes i) = true) →
        create_link v db url rand outcomes =
          (.error (.allocationExhausted
            "Failed to generate unique short code after 10 attempts"), db)) ∧
      (∀ k, k < 10 → (∀ i, i < k → retryableCollision (outcomes i) = true) →
        outcomes k = .ok →
        ∃ link db1, create_link v db url rand outcomes = (.ok link, db1) ∧
          link.short_code = generate_short_code (rand k) 6 ∧
          link.original_url = url ∧ db1.links = db.links ++ [link]) := by
  intro v db url rand outcomes hv hfind
  constructor
  · intro hall
    simp only [create_link, hv, hfind]
    rw [show (10 : Nat) = 10 + 0 by rfl,
      create_link_loop_shift url rand outcomes 10 0 0 db
        (by simpa using hall)]
    rfl
  · intro k hk hcoll hok
    simp only [create_link, hv, hfind]
    rw [show (10 : Nat) = k + (9 - k + 1) by omega,
      create_link_loop_shift url rand outcomes k (9 - k + 1) 0 db
        (by simpa using hcoll),
      Nat.zero_add, create_link_loop]
    simp only [hok, insertLink]
    exact ⟨_, _, rfl, rfl, rfl, rfl⟩

/-- Witness for C4: ten straight `short_code` collisions exhaust the bound. -/
theorem create_link_retry_policy_witness :
    create_link allValid emptyDB "https://example.com/a" zeroRand allCollide =
      (.error (.allocationExhausted
        "Failed to generate unique short code after 10 attempts"), emptyDB) := by
  have hcoll : ∀ i : Nat, i < 10 → retryableCollision (allCollide i) = true := by
    intro i _
    show retryableCollision (InsertOutcome.integrityError collisionMsg) = true
    decide
  exact (create_link_retry_policy allValid emptyDB "https://example.com/a"
    zeroRand allCollide (by decide) (by decide)).1 hcoll

/-- C5 counterexample: on the empty store (so the dedup check misses), an
insert that fails with an `original_url` unique-constraint violation — the
concurrent-duplicate race — makes `create_link` return the re-raised
`IntegrityError`, not the row the other writer created. -/
theorem create_link_url_race_counterexample :
    create_link allValid emptyDB "https://example.com/page" zeroRand
      (fun _ => .integrityError raceMsg) =
      (.error (.integrityError raceMsg), emptyDB) := by decide

/-- C5 (the claim as amended): if the insert attempt fails with an
`IntegrityError` whose message does not mention `short_code` — in
particular an `original_url` uniqueness violation from a concurrent
writer — `create_link` does not re-fetch: it re-raises the error to its
caller and leaves the store unchanged. -/
theorem create_link_url_race_reraises :
    ∀ v db url rand outcomes k msg,
      validate_url v url = .ok () →
      findByUrl db.links url = none →
      k < 10 →
      (∀ i, i < k → retryableCollision (outcomes i) = true) →
      outcomes k = .integrityError msg →
      containsSub msg "short_code" = false →
      create_link v db url rand outcomes =
        (.error (.integrityError msg), db) := by
  intro v db url rand outcomes k msg hv hfind hk hcoll hout hmsg
  simp only [create_link, hv, hfind]
  rw [show (10 : Nat) = k + (9 - k + 1) by omega,
    create_link_loop_shift url rand outcomes k (9 - k + 1) 0 db
      (by simpa using hcoll),
    Nat.zero_add, create_link_loop]
  simp [hout, hmsg]

/-- Witness for the amended C5, with the race on the very first attempt. -/
theorem create_link_url_race_reraises_witness :
    create_link allValid emptyDB "https://example.com/b" zeroRand
      (fun _ => .integrityError raceMsg) =
      (.error (.integrityError raceMsg), emptyDB) :=
  create_link_url_race_reraises allValid emptyDB "https://example.com/b"
    zeroRand (fun _ => .integrityError raceMsg) 0 raceMsg (by decide)
    (by decide) (by omega) (fun i hi => absurd hi (Nat.not_lt_zero i)) rfl
    (by decide)

/-- C1: `create_link` is idempotent on its URL — a second call with the
same `original_url`, after any successful first call, returns the very
row the first call returned and leaves the store unchanged, whatever the
second call's randomness and insert-outcome oracles are (so no new row is
inserted and no new code is generated). -/
theorem create_link_idempotent :
    ∀ v db url rand outcomes rand2 outcomes2 link db1,
      create_link v db url rand outcomes = (.ok link, db1) →
      create_link v db1 url rand2 outcomes2 = (.ok link, db1) := by
  intro v db url rand outcomes rand2 outcomes2 link db1 h
  cases hv : validate_url v url with
  | error m => simp [create_link, hv] at h
  | ok u =>
    cases u
    simp only [create_link, hv] at h ⊢
    cases hf : findByUrl db.links url with
    | some existing =>
      simp only [hf] at h
      obtain ⟨h1, h2⟩ : existing = link ∧ db = db1 := by
        simpa [Prod.ext_iff] using h
      subst h1
      subst h2
      simp [hf]
    | none =>
      simp only [hf] at h
      obtain ⟨hurl, hlinks, -, -⟩ :=
        create_link_loop_ok_shape url rand outcomes 10 0 db link db1 h
      have hfind1 : findByUrl db1.links url = some link := by
        rw [hlinks]
        exact findByUrl_append_singleton _ _ _ hf hurl
      simp [hfind1]

/-- Witness for C1: re-submitting the URL of `demoLink` against the store
that holds it returns `demoLink` unchanged, even under a hostile oracle. -/
theorem create_link_idempotent_witness :
    create_link allValid demoDB "https://example.com/a"
      (fun _ _ => 5) (fun _ => .integrityError raceMsg) =
      (.ok demoLink, demoDB) :=
  create_link_idempotent allValid emptyDB "https://example.com/a" zeroRand
    allOk (fun _ _ => 5) (fun _ => .integrityError raceMsg) demoLink demoDB
    (by decide)

/-- C3: every URL that does not start with the `http://`/`https://` scheme,
or that contains `localhost` (case-insensitively) or `127.0.0.1` — which in
particular covers every URL whose host is localhost — is rejected by
`create_link` with a `ValidationError` carrying a non-empty human-readable
reason, and the store is unchanged. -/
theorem create_link_rejects_invalid :
    ∀ v db url rand outcomes,
      ((pyStartsWith url "http://" = false ∧
        pyStartsWith url "https://" = false) ∨
       containsSub (lowerString url) "localhost" = true ∨
       containsSub url "127.0.0.1" = true) →
      ∃ m, create_link v db url rand outcomes =
        (.error (.validationError m), db) ∧ m ≠ "" := by
  intro v db url rand outcomes h
  obtain ⟨m, hm, hne⟩ := validate_url_rejects v url h
  exact ⟨m, create_link_validation_error v db url rand outcomes m hm, hne⟩

/-- Witness for C3 at the spec's two examples: `ftp://example.com` (bad
scheme) and `http://localhost/x` (localhost), both rejected with the store
untouched. -/
theorem create_link_rejects_invalid_witness :
    (create_link allValid emptyDB "ftp://example.com" zeroRand allOk).2 =
        emptyDB ∧
    (create_link allValid emptyDB "http://localhost/x" zeroRand allOk).2 =
        emptyDB := by
  obtain ⟨m1, hm1, -⟩ := create_link_rejects_invalid allValid emptyDB
    "ftp://example.com" zeroRand allOk (Or.inl ⟨by decide, by decide⟩)
  obtain ⟨m2, hm2, -⟩ := create_link_rejects_invalid allValid emptyDB
    "http://localhost/x" zeroRand allOk (Or.inr (Or.inl (by decide)))
  rw [hm1, hm2]
  exact ⟨rfl, rfl⟩

/-- C10: the localhost rejection of `validate_url` matches on the entire
URL string, not only the host — any URL containing `localhost` in any
character case, or `127.0.0.1`, anywhere (path, query or fragment
included) is rejected by `validate_url`, and `create_link` rejects it with
a `ValidationError` leaving the store unchanged. -/
theorem localhost_anywhere_rejected :
    ∀ v db url rand outcomes,
      (containsSub (lowerString url) "localhost" = true ∨
       containsSub url "127.0.0.1" = true) →
      (∃ m, validate_url v url = .error m) ∧
      ∃ m, create_link v db url rand outcomes =
        (.error (.validationError m), db) := by
  intro v db url rand outcomes h
  obtain ⟨m, hm, -⟩ := validate_url_rejects v url (Or.inr h)
  exact ⟨⟨m, hm⟩, m, create_link_validation_error v db url rand outcomes m hm⟩

/-- Witness for C10 at `https://example.com/localhost`: rejected although
its host is not localhost (`localhost` only occurs in the path). -/
theorem localhost_anywhere_rejected_witness :
    (create_link allValid emptyDB "https://example.com/localhost" zeroRand
        allOk).2 = emptyDB ∧
    validate_url allValid "https://example.com/localhost" ≠ .ok () := by
  obtain ⟨⟨m1, hm1⟩, m2, hm2⟩ := localhost_anywhere_rejected allValid emptyDB
    "https://example.com/localhost" zeroRand allOk (Or.inl (by decide))
  constructor
  · rw [hm2]
  · rw [hm1]
    simp

/-- C8 counterexample: a request whose forwarded-for header is present but
empty.  The claim predicts the stored IP is the first comma-separated
entry of the header trimmed (the empty string); the code's truthiness test
sends it to `REMOTE_ADDR` instead. -/
theorem ip_empty_header_counterexample :
    metaGet emptyXffReq.META "HTTP_X_FORWARDED_FOR" = some "" ∧
    (extract_metadata emptyXffReq).ip_address = some "203.0.113.9" ∧
    (extract_metadata emptyXffReq).ip_address ≠
      some (firstForwardedEntry "") := by decide

/-- C8 (the claim as amended): the stored `ip_address` is the first
comma-separated entry of the forwarded-for header, trimmed of whitespace,
when that header is present with a non-empty value; otherwise — absent
header or empty value — it is the direct connection's `REMOTE_ADDR`. -/
theorem ip_extraction_rule :
    ∀ req : HttpRequest,
      (∀ s, metaGet req.META "HTTP_X_FORWARDED_FOR" = some s → s ≠ "" →
        (extract_metadata req).ip_address = some (firstForwardedEntry s)) ∧
      (metaGet req.META "HTTP_X_FORWARDED_FOR" = none ∨
          metaGet req.META "HTTP_X_FORWARDED_FOR" = some "" →
        (extract_metadata req).ip_address =
          metaGet req.META "REMOTE_ADDR") := by
  intro req
  constructor
  · intro s hs hne
    simp [extract_metadata, hs, hne]
  · intro h
    rcases h with h | h <;> simp [extract_metadata, h]

/-- Witness for the amended C8: the proxied request stores the first hop
of the chain, trimmed; the empty-header request stores `REMOTE_ADDR`. -/
theorem ip_extraction_rule_witness :
    (extract_metadata proxiedReq).ip_address = some "203.0.113.7" ∧
    (extract_metadata emptyXffReq).ip_address =
      metaGet emptyXffReq.META "REMOTE_ADDR" := by
  constructor
  · have h := (ip_extraction_rule proxiedReq).1 " 203.0.113.7 , 10.0.0.2"
      (by decide) (by decide)
    rw [h]
    decide
  · exact (ip_extraction_rule emptyXffReq).2 (Or.inr (by decide))

theorem assocUpdate_of_not_mem (l : List (String × String)) (k v : String)
    (h : k ∉ l.map Prod.fst) : assocUpdate l k v = l ++ [(k, v)] := by
  induction l with
  | nil => rfl
  | cons p rest ih =>
    simp only [List.map_cons, List.mem_cons] at h
    push_neg at h
    obtain ⟨h1, h2⟩ := h
    cases p with
    | mk k' v' =>
      simp only at h1
      have hne : (k' == k) = false := beq_eq_false_iff_ne.mpr (Ne.symm h1)
      simp only [assocUpdate, hne, Bool.false_eq_true, if_false,
        List.cons_append, List.cons.injEq, true_and]
      exact ih h2

theorem foldl_assocUpdate_nodup :
    ∀ (pairs acc : List (String × String)),
      ((acc ++ pairs).map Prod.fst).Nodup →
      pairs.foldl (fun a p => assocUpdate a p.1 p.2) acc = acc ++ pairs := by
  intro pairs
  induction pairs with
  | nil =>
    intro acc _
    simp
  | cons p ps ih =>
    intro acc h
    have hnotmem : p.1 ∉ acc.map Prod.fst := by
      rw [List.map_append] at h
      rcases List.nodup_append.mp h with ⟨-, -, hdisj⟩
      intro hmem
      exact hdisj hmem (by simp)
    simp only [List.foldl_cons]
    rw [assocUpdate_of_not_mem acc p.1 p.2 hnotmem]
    have hperm : (acc ++ [(p.1, p.2)]) ++ ps = acc ++ p :: ps := by
      simp
    have := ih (acc ++ [(p.1, p.2)]) (by rw [hperm]; exact h)
    rw [this, hperm]

theorem dictItems_of_nodup_keys (pairs : List (String × String))
    (h : (pairs.map Prod.fst).Nodup) : dictItems pairs = pairs := by
  have := foldl_assocUpdate_nodup pairs [] (by simpa using h)
  simpa [dictItems] using this

/-- C9 counterexample: the query string `a=1&a=2` repeats a key; the stored
`query_params` keeps only the last value per key, so the pair `("a", "1")`
of the query string is not in the stored mapping — the full verbatim set
of pairs is not captured. -/
theorem query_params_dup_key_counterexample :
    (extract_metadata dupKeyReq).query_params = some [("a", "2")] ∧
    ("a", "1") ∈ dupKeyReq.GET ∧
    ("a", "1") ∉ [(("a" : String), ("2" : String))] := by decide

/-- C9 (the claim as amended): for a request with an empty query string
`query_params` is omitted (stored as null); for a non-empty query string
it is the key/value mapping keeping, for each key, its last value — which
is exactly the full verbatim pair list whenever no key repeats. -/
theorem query_params_rule :
    ∀ req : HttpRequest,
      (req.GET = [] → (extract_metadata req).query_params = none) ∧
      (req.GET ≠ [] →
        (extract_metadata req).query_params = some (dictItems req.GET)) ∧
      (req.GET ≠ [] → (req.GET.map Prod.fst).Nodup →
        (extract_metadata req).query_params = some req.GET) := by
  intro req
  refine ⟨fun h => by simp [extract_metadata, h], fun h => ?_, fun h hn => ?_⟩
  · simp [extract_metadata, List.isEmpty_iff, h]
  · simp [extract_metadata, List.isEmpty_iff, h, dictItems_of_nodup_keys _ hn]

/-- Witness for the amended C9: one UTM parameter is stored verbatim, and
an empty query string is stored as null. -/
theorem query_params_rule_witness :
    (extract_metadata demoReq).query_params = some [("utm_source", "x")] ∧
    (extract_metadata proxiedReq).query_params = none := by
  constructor
  · exact (query_params_rule demoReq).2.2 (by decide) (by decide)
  · exact (query_params_rule proxiedReq).1 rfl

theorem record_click_none_eq (db : DB) (short_link : ShortLink)
    (req : HttpRequest) :
    record_click none db short_link req =
      (some (recordedClick db short_link req),
        recordedDB db short_link req) := rfl

theorem bumpIfPk_id (i : Nat) (l : ShortLink) : (bumpIfPk i l).id = l.id := by
  by_cases hb : (l.id == i) = true <;> simp [bumpIfPk, hb]

theorem find?_id_of_nodup (ls : List ShortLink) (link : ShortLink)
    (hnodup : (ls.map ShortLink.id).Nodup) (hmem : link ∈ ls) :
    ls.find? (fun l => l.id == link.id) = some link := by
  induction ls with
  | nil => simp at hmem
  | cons a rest ih =>
    rw [List.map_cons, List.nodup_cons] at hnodup
    rcases List.mem_cons.mp hmem with rfl | hmem'
    · simp [List.find?_cons]
    · have hne : (a.id == link.id) = false := by
        refine beq_eq_false_iff_ne.mpr fun he => hnodup.1 ?_
        exact he ▸ List.mem_map_of_mem ShortLink.id hmem'
      simp only [List.find?_cons, hne]
      exact ih hnodup.2 hmem'

theorem countClicks_append_single (clicks : List Click) (c : Click)
    (i : Nat) :
    countClicks (clicks ++ [c]) i =
      countClicks clicks i + (if c.short_link_id == i then 1 else 0) := by
  by_cases hb : (c.short_link_id == i) = true <;>
    simp [countClicks, List.filter_append, hb]

/-- C6: `record_click` never raises: it is a total function into an
optional result, an oracle-reported storage error is converted into the
no-value result with the store untouched, and every run ends in one of the
two non-exceptional outcomes (silent no-op, or the recorded click). -/
theorem record_click_never_raises :
    ∀ storeErr db link req,
      (∀ e, storeErr = some e →
        record_click storeErr db link req = (none, db)) ∧
      (record_click storeErr db link req = (none, db) ∨
        record_click storeErr db link req =
          (some (recordedClick db link req), recordedDB db link req)) := by
  intro storeErr db link req
  constructor
  · intro e he
    subst he
    rfl
  · cases storeErr with
    | none => right; rfl
    | some e => left; rfl

/-- Witness for C6: a storage failure during recording yields the silent
no-op result on an untouched store. -/
theorem record_click_never_raises_witness :
    record_click (some "database timeout") demoDB demoLink demoReq =
      (none, demoDB) :=
  (record_click_never_raises (some "database timeout") demoDB demoLink
    demoReq).1 "database timeout" rfl

/-- C2: a successful `record_click` appends exactly one new `Click` row
referencing the link, increments exactly that link's `clicks_count` by 1
(located by pk), and preserves the invariant that every link's
`clicks_count` equals the number of `Click` rows referencing it. -/
theorem record_click_atomic :
    ∀ db link req,
      (db.links.map ShortLink.id).Nodup →
      link ∈ db.links →
      record_click none db link req =
          (some (recordedClick db link req), recordedDB db link req) ∧
      (recordedClick db link req).short_link_id = link.id ∧
      (recordedDB db link req).clicks =
          db.clicks ++ [recordedClick db link req] ∧
      findByPk (recordedDB db link req) link.id =
          some { link with clicks_count := link.clicks_count + 1 } ∧
      (clicksInvariant db → clicksInvariant (recordedDB db link req)) := by
  intro db link req hnodup hmem
  refine ⟨rfl, rfl, rfl, ?_, ?_⟩
  · have hnodup' : ((db.links.map (bumpIfPk link.id)).map ShortLink.id).Nodup := by
      rw [List.map_map]
      have : db.links.map (ShortLink.id ∘ bumpIfPk link.id) =
          db.links.map ShortLink.id :=
        List.map_congr_left fun l _ => bumpIfPk_id link.id l
      rw [this]
      exact hnodup
    have hfound := find?_id_of_nodup (db.links.map (bumpIfPk link.id))
      (bumpIfPk link.id link) hnodup'
      (List.mem_map_of_mem (bumpIfPk link.id) hmem)
    rw [bumpIfPk_id] at hfound
    have hgl : bumpIfPk link.id link =
        { link with clicks_count := link.clicks_count + 1 } := by
      simp [bumpIfPk]
    rw [hgl] at hfound
    exact hfound
  · intro hinv l' hl'
    obtain ⟨l, hl, rfl⟩ :=
      List.mem_map.mp (show l' ∈ db.links.map (bumpIfPk link.id) from hl')
    show (bumpIfPk link.id l).clicks_count =
      countClicks (db.clicks ++ [recordedClick db link req])
        (bumpIfPk link.id l).id
    rw [bumpIfPk_id, countClicks_append_single]
    by_cases hb : (l.id == link.id) = true
    · have hid' : l.id = link.id := by simpa using hb
      have hc : ((recordedClick db link req).short_link_id == l.id) = true := by
        simp [recordedClick, hid']
      simp [bumpIfPk, hb, hc, hinv l hl]
    · have hc : ((recordedClick db link req).short_link_id == l.id) = false := by
        refine beq_eq_false_iff_ne.mpr ?_
        show link.id ≠ l.id
        intro he
        exact absurd (by simpa using he.symm) hb
      simp [bumpIfPk, hb, hc, hinv l hl]

/-- Witness for C2: recording a click on `demoLink` bumps its counter row
to 1. -/
theorem record_click_atomic_witness :
    findByPk (recordedDB demoDB demoLink demoReq) demoLink.id =
      some { demoLink with clicks_count := demoLink.clicks_count + 1 } :=
  (record_click_atomic demoDB demoLink demoReq (by decide)
    (by decide)).2.2.2.1

end Shortify
